import Mathlib

/-!
Verification of the incremental parse-tree construction core of the
powerquery-parser repository (`src/parser/context.ts`) together with the
type-name renderer contract, against the repository specification.

The TypeScript state (a record of four JavaScript `Map`s, a leaf-id list, an
id counter and a root handle) is embedded shallowly: each `Map<number, T>`
becomes an association list with JavaScript `Map` semantics (`get` finds the
first entry, `set` overwrites in place or appends, `delete` removes the entry
and reports whether it was present), and each mutating operation becomes a
pure function from the old state to the new one.  TypeScript exceptions
(`CommonError.InvariantError`) become an `Except` whose error also carries
the state as already mutated at the moment of the throw, so that the
non-atomicity of the operations stays observable.
-/

namespace PQP

/-! ## JavaScript `Map<number, α>` as an association list -/

/-- Association list standing in for a JavaScript `Map<number, α>`. -/
abbrev JsMap (α : Type) := List (Nat × α)

/-- `Map.get`: the value at the first entry with the given key, if any. -/
def mapGet {α : Type} (m : JsMap α) (k : Nat) : Option α :=
  match m with
  | [] => none
  | (k', v) :: rest => if k' = k then some v else mapGet rest k

/-- `Map.set`: overwrite the entry in place when the key is present, else append. -/
def mapSet {α : Type} (m : JsMap α) (k : Nat) (v : α) : JsMap α :=
  match m with
  | [] => [(k, v)]
  | (k', v') :: rest => if k' = k then (k, v) :: rest else (k', v') :: mapSet rest k v

/-- `Map.delete`: remove the entry with the given key; the boolean reports
whether an entry was present (the return value of the JavaScript call). -/
def mapDelete {α : Type} (m : JsMap α) (k : Nat) : JsMap α × Bool :=
  match m with
  | [] => ([], false)
  | (k', v) :: rest =>
    let r := mapDelete rest k
    if k' = k then (r.1, true) else ((k', v) :: r.1, r.2)

/-- In-place field update of the entry at a key, modelling a TypeScript
mutation of the object held in the map (a no-op when the key is absent). -/
def mapAdjust {α : Type} (m : JsMap α) (k : Nat) (f : α → α) : JsMap α :=
  match m with
  | [] => []
  | (k', v) :: rest => if k' = k then (k', f v) :: rest else (k', v) :: mapAdjust rest k f

/-- The key list of a map, in entry order. -/
def mapKeys {α : Type} (m : JsMap α) : List Nat :=
  m.map (·.1)

@[simp] theorem mapGet_set_self {α : Type} (m : JsMap α) (k : Nat) (v : α) :
    mapGet (mapSet m k v) k = some v := by
  induction m with
  | nil => simp [mapGet, mapSet]
  | cons hd tl ih =>
    by_cases h : hd.1 = k <;> simp [mapGet, mapSet, h, ih]

@[simp] theorem mapGet_set_ne {α : Type} (m : JsMap α) (k k' : Nat) (v : α) (h : k' ≠ k) :
    mapGet (mapSet m k v) k' = mapGet m k' := by
  induction m with
  | nil => simp [mapGet, mapSet, Ne.symm h]
  | cons hd tl ih =>
    obtain ⟨k0, v0⟩ := hd
    by_cases hh : k0 = k
    · subst hh; simp [mapGet, mapSet, Ne.symm h]
    · by_cases hk : k0 = k' <;> simp [mapGet, mapSet, hh, hk, ih, h]

@[simp] theorem mapGet_adjust_self {α : Type} (m : JsMap α) (k : Nat) (f : α → α) :
    mapGet (mapAdjust m k f) k = (mapGet m k).map f := by
  induction m with
  | nil => simp [mapGet, mapAdjust]
  | cons hd tl ih =>
    by_cases h : hd.1 = k <;> simp [mapGet, mapAdjust, h, ih]

@[simp] theorem mapGet_adjust_ne {α : Type} (m : JsMap α) (k k' : Nat) (f : α → α) (h : k' ≠ k) :
    mapGet (mapAdjust m k f) k' = mapGet m k' := by
  induction m with
  | nil => simp [mapGet, mapAdjust]
  | cons hd tl ih =>
    obtain ⟨k0, v0⟩ := hd
    by_cases hh : k0 = k
    · subst hh; simp [mapGet, mapAdjust, Ne.symm h]
    · by_cases hk : k0 = k' <;> simp [mapGet, mapAdjust, hh, hk, ih, h]

@[simp] theorem mapGet_delete_self {α : Type} (m : JsMap α) (k : Nat) :
    mapGet (mapDelete m k).1 k = none := by
  induction m with
  | nil => simp [mapGet, mapDelete]
  | cons hd tl ih =>
    by_cases h : hd.1 = k <;> simp [mapGet, mapDelete, h, ih]

@[simp] theorem mapGet_delete_ne {α : Type} (m : JsMap α) (k k' : Nat) (h : k' ≠ k) :
    mapGet (mapDelete m k).1 k' = mapGet m k' := by
  induction m with
  | nil => simp [mapGet, mapDelete]
  | cons hd tl ih =>
    obtain ⟨k0, v0⟩ := hd
    by_cases hh : k0 = k
    · subst hh; simp [mapGet, mapDelete, Ne.symm h, ih]
    · by_cases hk : k0 = k' <;> simp [mapGet, mapDelete, hh, hk, ih, h]

@[simp] theorem mapDelete_found {α : Type} (m : JsMap α) (k : Nat) :
    (mapDelete m k).2 = (mapGet m k).isSome := by
  induction m with
  | nil => simp [mapGet, mapDelete]
  | cons hd tl ih =>
    by_cases h : hd.1 = k <;> simp [mapGet, mapDelete, h, ih]

/-- `Array.indexOf` restricted to hits: the index of the first occurrence. -/
def firstIndexOf (xs : List Nat) (x : Nat) : Option Nat :=
  match xs with
  | [] => none
  | y :: ys => if y = x then some 0 else (firstIndexOf ys x).map (· + 1)

/-! ## Data model (`context.ts` lines 29-51 and the `NodeIdMap.Collection` shape) -/

/-- `Ast.NodeKind`: the grammar-production enumeration.  Only the kinds the
scenarios exercise are named; `otherKind` stands for the remaining members of
the TypeScript enum, which the lifecycle code never inspects. -/
inductive NodeKind
  | listExpression
  | csv
  | constant
  | literalExpression
  | recordExpression
  | otherKind (tag : Nat)
deriving DecidableEq, Repr

/-- Stand-in for `lexer.Token`: the lifecycle stores the handle and never
reads through it, so an opaque index suffices. -/
abbrev Token := Nat

/-- The slice of `Ast.TNode` that the Context Lifecycle reads or writes:
`id` and `isLeaf` (read by `endContext`), `kind` (structural data) and
`maybeAttributeIndex` (written by `deleteContext` through `StripReadonly`).
The remaining kind-specific payload of `Ast.TNode` is never touched by
`context.ts` and is omitted. -/
structure AstNode where
  id : Nat
  kind : NodeKind
  isLeaf : Bool
  maybeAttributeIndex : Option Nat
deriving DecidableEq, Repr

/-- `Context.Node` (`context.ts` lines 40-51). -/
structure Node where
  id : Nat
  kind : NodeKind
  tokenIndexStart : Nat
  maybeTokenStart : Option Token
  attributeCounter : Nat
  maybeAstNode : Option AstNode
  maybeAttributeIndex : Option Nat
deriving DecidableEq, Repr

/-- `Context.Root` (`context.ts` lines 36-38). -/
structure Root where
  maybeNode : Option Node
deriving DecidableEq, Repr

/-- `NodeIdMap.Collection`: the four id-indexed mappings. -/
structure Collection where
  astNodeById : JsMap AstNode
  contextNodeById : JsMap Node
  parentIdById : JsMap Nat
  childIdsById : JsMap (List Nat)
deriving DecidableEq, Repr

/-- `Context.State` (`context.ts` lines 29-34). -/
structure State where
  root : Root
  nodeIdMapCollection : Collection
  idCounter : Nat
  leafNodeIds : List Nat
deriving DecidableEq, Repr

/-- `CommonError.InvariantError`: the single error kind of the core.  The
constructors name the distinct messages raised by `context.ts` and by the
`NodeIdMap.expect…` lookups it calls. -/
inductive InvariantError
  /-- "context was already ended" -/
  | contextAlreadyEnded
  /-- "contextNode and astNode have different nodeIds" -/
  | differingNodeIds
  /-- "can't end a context that doesn't belong to state" -/
  | contextNotInState
  /-- "nodeId not in state." -/
  | nodeIdNotInState
  /-- "childIds.length !== 0" (the message of the length-1 guard) -/
  | childIdsLengthMismatch
  /-- "childId isn't a child of parentId" -/
  | childIdNotOfParent
  /-- `NodeIdMap.expectChildIds` miss -/
  | missingChildIds
  /-- `NodeIdMap.expectXorNode` miss -/
  | missingXorNode
  /-- `NodeIdMap.expectContextNode` miss -/
  | missingContextNode
deriving DecidableEq, Repr

/-- `Context.empty` (`context.ts` lines 53-67). -/
def empty : State :=
  { root := { maybeNode := none }
    nodeIdMapCollection :=
      { astNodeById := []
        contextNodeById := []
        parentIdById := []
        childIdsById := [] }
    idCounter := 0
    leafNodeIds := [] }

/-- Re-establishes the aliasing between `state.root.maybeNode` and the entry
of `contextNodeById` carrying the same id.  In TypeScript the two are the
same heap object, so a field written through the map entry is seen through
the root handle; in the pure embedding the root stores a copy, refreshed here
after every mutation of a context entry.  A root whose id is no longer in the
map keeps its (now dangling) value, exactly as the TypeScript object does. -/
def syncRoot (s : State) : State :=
  match s.root.maybeNode with
  | none => s
  | some r =>
    match mapGet s.nodeIdMapCollection.contextNodeById r.id with
    | some n => { s with root := { maybeNode := some n } }
    | none => s

/-! ## `startContext` (`context.ts` lines 69-113) -/

/-- `Context.startContext`.  The source contains no `throw`: the function is
total.  `maybeAttributeIndex` is read from the parent's `attributeCounter`
before the counter is incremented; the increment happens on the shared heap
object, i.e. on the map entry (and on nothing when the parent id has no
entry, in which case only the caller's unregistered object changes, which is
outside the session state). -/
def startContext (s : State) (nodeKind : NodeKind) (tokenIndexStart : Nat)
    (maybeTokenStart : Option Token) (maybeParentNode : Option Node) : State × Node :=
  let nodeId := s.idCounter + 1
  match maybeParentNode with
  | none =>
    let node : Node :=
      { id := nodeId, kind := nodeKind, tokenIndexStart := tokenIndexStart
        maybeTokenStart := maybeTokenStart, attributeCounter := 0
        maybeAstNode := none, maybeAttributeIndex := none }
    let coll := s.nodeIdMapCollection
    let coll := { coll with contextNodeById := mapSet coll.contextNodeById nodeId node }
    (syncRoot { s with idCounter := nodeId, nodeIdMapCollection := coll }, node)
  | some parentNode =>
    let parentId := parentNode.id
    -- the counter of the shared parent object: the map entry when the parent
    -- is registered, the caller's copy otherwise
    let parentCounter :=
      match mapGet s.nodeIdMapCollection.contextNodeById parentId with
      | some pn => pn.attributeCounter
      | none => parentNode.attributeCounter
    let maybeAttributeIndex : Option Nat := some parentCounter
    let coll := s.nodeIdMapCollection
    let bumpCounter : Node → Node :=
      fun pn => { pn with attributeCounter := pn.attributeCounter + 1 }
    let coll :=
      { coll with contextNodeById := mapAdjust coll.contextNodeById parentId bumpCounter }
    let coll := { coll with parentIdById := mapSet coll.parentIdById nodeId parentId }
    let newChildren :=
      match mapGet coll.childIdsById parentId with
      | some existingChildren => existingChildren ++ [nodeId]
      | none => [nodeId]
    let coll := { coll with childIdsById := mapSet coll.childIdsById parentId newChildren }
    let node : Node :=
      { id := nodeId, kind := nodeKind, tokenIndexStart := tokenIndexStart
        maybeTokenStart := maybeTokenStart, attributeCounter := 0
        maybeAstNode := none, maybeAttributeIndex := maybeAttributeIndex }
    let coll := { coll with contextNodeById := mapSet coll.contextNodeById nodeId node }
    (syncRoot { s with idCounter := nodeId, nodeIdMapCollection := coll }, node)

/-! ## `endContext` (`context.ts` lines 117-149) -/

/-- `Context.endContext`.  The error value carries the session state as
already mutated at the moment of the throw: when the final
`contextNodeById.delete` fails, the conditional `leafNodeIds.push` has
already happened.  (The write `contextNode.maybeAstNode = astNode` lands on
the caller's object; its only state-reachable alias, the map entry at the
same id, is deleted in the very next statement, so the write never survives
into the session state.) -/
def endContext (s : State) (contextNode : Node) (astNode : AstNode) :
    Except (InvariantError × State) (State × Option Node) :=
  if contextNode.maybeAstNode.isSome then
    .error (.contextAlreadyEnded, s)
  else if contextNode.id ≠ astNode.id then
    .error (.differingNodeIds, s)
  else
    let s :=
      if astNode.isLeaf then { s with leafNodeIds := s.leafNodeIds ++ [contextNode.id] } else s
    let maybeParentId := mapGet s.nodeIdMapCollection.parentIdById contextNode.id
    let maybeParentNode :=
      match maybeParentId with
      | some parentId => mapGet s.nodeIdMapCollection.contextNodeById parentId
      | none => none
    let deleted := mapDelete s.nodeIdMapCollection.contextNodeById contextNode.id
    if deleted.2 then
      let coll := s.nodeIdMapCollection
      let coll :=
        { coll with
            contextNodeById := deleted.1,
            astNodeById := mapSet coll.astNodeById astNode.id astNode }
      .ok (syncRoot { s with nodeIdMapCollection := coll }, maybeParentNode)
    else
      .error (.contextNotInState, s)

/-! ## `deleteContext` (`context.ts` lines 151-224) and its helper
(`removeOrReplaceChildId`, lines 243-269) -/

/-- `removeOrReplaceChildId`.  `NodeIdMap.expectChildIds` and a missing child
both throw before any mutation, so a plain error suffices here; the caller
pairs it with its current state.  The replacement branch is guarded by the
JavaScript truthiness test `if (maybeReplacementId)`, under which a
replacement id of `0` behaves like plain removal. -/
def removeOrReplaceChildId (coll : Collection) (parentId childId : Nat)
    (maybeReplacementId : Option Nat) : Except InvariantError Collection :=
  match mapGet coll.childIdsById parentId with
  | none => .error .missingChildIds
  | some childIds =>
    match firstIndexOf childIds childId with
    | none => .error .childIdNotOfParent
    | some replacementIndex =>
      let beforeChildId := childIds.take replacementIndex
      let afterChildId := childIds.drop (replacementIndex + 1)
      let truthyReplacement :=
        match maybeReplacementId with
        | some replacementId => if replacementId = 0 then none else some replacementId
        | none => none
      match truthyReplacement with
      | some replacementId =>
        .ok { coll with
                childIdsById :=
                  mapSet coll.childIdsById parentId (beforeChildId ++ [replacementId] ++ afterChildId),
                parentIdById := mapSet coll.parentIdById replacementId parentId }
      | none =>
        .ok { coll with
                childIdsById := mapSet coll.childIdsById parentId (beforeChildId ++ afterChildId) }

/-- `deleteContext` lines 164-170: drop the first occurrence of the id from
`leafNodeIds` (via `indexOf` and two `slice`s), if present. -/
def leafRemove (s : State) (nodeId : Nat) : State :=
  match firstIndexOf s.leafNodeIds nodeId with
  | some leafIndex =>
    { s with leafNodeIds := s.leafNodeIds.take leafIndex ++ s.leafNodeIds.drop (leafIndex + 1) }
  | none => s

/-- `deleteContext` lines 203-206: the surviving child inherits the deleted
node's `maybeAttributeIndex`.  `NodeIdMap.expectXorNode` (modelled from the
spec, section 4.2: a lookup resolving either realm, failing with
`InvariantError` when the id is in neither) finds the child in whichever map
holds it, and the write goes through `TypeUtils.StripReadonly` onto that
entry — also when the entry is a closed ast node. -/
def inheritAttributeIndex (s : State) (childId : Nat) (idx : Option Nat) :
    Except InvariantError State :=
  match mapGet s.nodeIdMapCollection.contextNodeById childId with
  | some _ =>
    let coll := s.nodeIdMapCollection
    let coll :=
      { coll with contextNodeById :=
          mapAdjust coll.contextNodeById childId (fun c => { c with maybeAttributeIndex := idx }) }
    .ok { s with nodeIdMapCollection := coll }
  | none =>
    match mapGet s.nodeIdMapCollection.astNodeById childId with
    | some _ =>
      let coll := s.nodeIdMapCollection
      let coll :=
        { coll with astNodeById :=
            mapAdjust coll.astNodeById childId (fun a => { a with maybeAttributeIndex := idx }) }
      .ok { s with nodeIdMapCollection := coll }
    | none => .error .missingXorNode

/-- `deleteContext` lines 217-223: remove the node from the three mappings
and return its parent, resolved through `NodeIdMap.expectContextNode`
(modelled from the spec, section 4.2: a context lookup that fails with
`InvariantError` on a miss). -/
def deleteFinish (s : State) (nodeId : Nat) (maybeParentId : Option Nat) :
    Except (InvariantError × State) (State × Option Node) :=
  let coll := s.nodeIdMapCollection
  let coll :=
    { coll with
        contextNodeById := (mapDelete coll.contextNodeById nodeId).1,
        childIdsById := (mapDelete coll.childIdsById nodeId).1,
        parentIdById := (mapDelete coll.parentIdById nodeId).1 }
  let s := syncRoot { s with nodeIdMapCollection := coll }
  match maybeParentId with
  | none => .ok (s, none)
  | some parentId =>
    match mapGet s.nodeIdMapCollection.contextNodeById parentId with
    | some parentNode => .ok (s, some parentNode)
    | none => .error (.missingContextNode, s)

/-- `Context.deleteContext`.  Branch structure follows the source: a node
with a `childIdsById` entry (of any length, including zero) takes the
"not a leaf node" path and must have exactly one child; a node without an
entry takes the leaf path, where the parent-side cleanup is guarded by the
truthiness test `else if (maybeParentId)` (a parent id of `0` would skip
it). -/
def deleteContext (s : State) (nodeId : Nat) :
    Except (InvariantError × State) (State × Option Node) :=
  match mapGet s.nodeIdMapCollection.contextNodeById nodeId with
  | none => .error (.nodeIdNotInState, s)
  | some node =>
    let s := leafRemove s nodeId
    let maybeParentId := mapGet s.nodeIdMapCollection.parentIdById nodeId
    let maybeChildIds := mapGet s.nodeIdMapCollection.childIdsById nodeId
    match maybeChildIds with
    | some childIds =>
      if childIds.length ≠ 1 then
        .error (.childIdsLengthMismatch, s)
      else
        let childId := childIds.headD 0
        let promoted : Except (InvariantError × State) State :=
          match maybeParentId with
          | none =>
            -- the root node: promote the child when it is still a context
            match mapGet s.nodeIdMapCollection.contextNodeById childId with
            | some childContext => .ok { s with root := { maybeNode := some childContext } }
            | none => .ok s
          | some parentId =>
            match removeOrReplaceChildId s.nodeIdMapCollection parentId nodeId (some childId) with
            | .ok coll => .ok { s with nodeIdMapCollection := coll }
            | .error e => .error (e, s)
        match promoted with
        | .error es => .error es
        | .ok s =>
          match inheritAttributeIndex s childId node.maybeAttributeIndex with
          | .ok s => deleteFinish s nodeId maybeParentId
          | .error e => .error (e, s)
    | none =>
      match maybeParentId with
      | some parentId =>
        if parentId = 0 then
          deleteFinish s nodeId maybeParentId
        else
          match removeOrReplaceChildId s.nodeIdMapCollection parentId nodeId none with
          | .ok coll => deleteFinish { s with nodeIdMapCollection := coll } nodeId maybeParentId
          | .error e => .error (e, s)
      | none => deleteFinish s nodeId maybeParentId

/-! ## `deepCopy` (`context.ts` lines 226-241) -/

/-- Modelled from the spec: `NodeIdMap.deepCopyCollection` is not among the
provided source files.  Per section 4.2 it duplicates the four mappings and
shares the immutable ast records; in this pure embedding, duplication of a
value is the value itself. -/
def deepCopyCollection (coll : Collection) : Collection := coll

/-- `Context.deepCopy`: the root handle of the copy is re-resolved through
the copied `contextNodeById`, so a root whose node is closed or deleted comes
out as `none` in the copy. -/
def deepCopy (s : State) : State :=
  let coll := deepCopyCollection s.nodeIdMapCollection
  let maybeRootNode :=
    match s.root.maybeNode with
    | some r => mapGet coll.contextNodeById r.id
    | none => none
  { root := { maybeNode := maybeRootNode }
    nodeIdMapCollection := coll
    idCounter := s.idCounter
    leafNodeIds := s.leafNodeIds }

/-- The session state an operation left behind, whether it returned or threw
(TypeScript exceptions do not roll the heap back). -/
def stateOf (r : Except (InvariantError × State) (State × Option Node)) : State :=
  match r with
  | .ok (s, _) => s
  | .error (_, s) => s

/-! ## Type-name renderer

`TypeUtils.nameOf` itself is not among the provided source files; only its
test suite is.  The definitions below are modelled from the spec (section
4.5) and cross-checked against the expected strings of that test suite. -/

/-- Modelled from the spec: the primitive type-kind enumeration of section
4.5 (`TypeUtils.nameOf` and `Type.TypeKind` are not under the provided
sources). -/
inductive TypeKind
  | any
  | anyNonNull
  | binary
  | date
  | dateTime
  | dateTimeZone
  | duration
  | functionKind
  | list
  | logical
  | noneKind
  | nullKind
  | number
  | record
  | table
  | typeKind
  | action
  | time
  | notApplicable
  | unknown
  | text
deriving DecidableEq, Repr

/-- Modelled from the spec: the literal word each primitive renders as. -/
def typeKindName : TypeKind → String
  | .any => "any"
  | .anyNonNull => "anynonnull"
  | .binary => "binary"
  | .date => "date"
  | .dateTime => "datetime"
  | .dateTimeZone => "datetimezone"
  | .duration => "duration"
  | .functionKind => "function"
  | .list => "list"
  | .logical => "logical"
  | .noneKind => "none"
  | .nullKind => "null"
  | .number => "number"
  | .record => "record"
  | .table => "table"
  | .typeKind => "type"
  | .action => "action"
  | .time => "time"
  | .notApplicable => "not applicable"
  | .unknown => "unknown"
  | .text => "text"

/-- Modelled from the spec: a function-parameter descriptor, shaped as in the
test suite (`isNullable`, `isOptional`, `maybeType`, `nameLiteral`). -/
structure FunctionParameter where
  isNullable : Bool
  isOptional : Bool
  maybeType : Option TypeKind
  nameLiteral : String
deriving DecidableEq, Repr

/-- Modelled from the spec: the structured type-descriptor variants accepted
by the renderer (section 4.5). -/
inductive TType
  | primitive (isNullable : Bool) (kind : TypeKind)
  | anyUnion (isNullable : Bool) (unionedTypes : List TType)
  | definedFunction (isNullable : Bool) (parameters : List FunctionParameter) (returnType : TType)
  | definedList (isNullable : Bool) (elements : List TType)
  | definedListType (isNullable : Bool) (itemTypes : List TType)
  | definedRecord (isNullable : Bool) (fields : List (String × TType)) (isOpen : Bool)
  | definedTable (isNullable : Bool) (fields : List (String × TType)) (isOpen : Bool)
  | functionType (isNullable : Bool) (parameters : List FunctionParameter) (returnType : TType)
  | listType (isNullable : Bool) (itemType : TType)
  | primaryPrimitiveType (isNullable : Bool) (primitive : TypeKind)
  | recordType (isNullable : Bool) (fields : List (String × TType)) (isOpen : Bool)
  | tableType (isNullable : Bool) (fields : List (String × TType)) (isOpen : Bool)
  | tableTypePrimaryExpression (isNullable : Bool) (primaryExpression : TType)

/-- Modelled from the spec: a parameter renders as
`name: [optional ][nullable ]type` (the optional marker precedes nullable). -/
def nameOfFunctionParameter (p : FunctionParameter) : String :=
  p.nameLiteral ++ ": "
    ++ (if p.isOptional then "optional " else "")
    ++ (if p.isNullable then "nullable " else "")
    ++ (match p.maybeType with
        | some k => typeKindName k
        | none => "")

/-- Modelled from the spec: the bracket group of record-like descriptors,
with a trailing `, ...` when open, and `[]` / `[...]` when empty. -/
def fieldBracket (parts : List String) (isOpen : Bool) : String :=
  if isOpen then
    if parts.isEmpty then "[...]"
    else "[" ++ String.intercalate ", " parts ++ ", ...]"
  else
    "[" ++ String.intercalate ", " parts ++ "]"

/-- The `isNullable` flag common to every descriptor variant. -/
def TType.isNullableFlag : TType → Bool
  | .primitive isNullable _ => isNullable
  | .anyUnion isNullable _ => isNullable
  | .definedFunction isNullable _ _ => isNullable
  | .definedList isNullable _ => isNullable
  | .definedListType isNullable _ => isNullable
  | .definedRecord isNullable _ _ => isNullable
  | .definedTable isNullable _ _ => isNullable
  | .functionType isNullable _ _ => isNullable
  | .listType isNullable _ => isNullable
  | .primaryPrimitiveType isNullable _ => isNullable
  | .recordType isNullable _ _ => isNullable
  | .tableType isNullable _ _ => isNullable
  | .tableTypePrimaryExpression isNullable _ => isNullable

mutual

/-- Modelled from the spec: `TypeUtils.nameOf`, the canonical rendering of a
type descriptor (section 4.5); the `nullable ` prefix wraps every variant. -/
def nameOf (t : TType) : String :=
  (if t.isNullableFlag then "nullable " else "") ++ nameOfBase t
termination_by (sizeOf t, 1)

/-- The rendering of a descriptor before the nullable wrapping. -/
def nameOfBase (t : TType) : String :=
  match t with
  | .primitive _ kind => typeKindName kind
  | .anyUnion _ unionedTypes => String.intercalate " | " (nameOfList unionedTypes)
  | .definedFunction _ parameters returnType =>
    "(" ++ String.intercalate ", " (parameters.map nameOfFunctionParameter) ++ ") => "
      ++ nameOf returnType
  | .definedList _ elements =>
    "\x7b" ++ String.intercalate ", " (nameOfList elements) ++ "\x7d"
  | .definedListType _ itemTypes =>
    "type \x7b" ++ String.intercalate ", " (nameOfList itemTypes) ++ "\x7d"
  | .definedRecord _ fields isOpen => fieldBracket (nameOfFields fields) isOpen
  | .definedTable _ fields isOpen => "table " ++ fieldBracket (nameOfFields fields) isOpen
  | .functionType _ parameters returnType =>
    "type function (" ++ String.intercalate ", " (parameters.map nameOfFunctionParameter)
      ++ ") " ++ nameOf returnType
  | .listType _ itemType => "type \x7b" ++ nameOf itemType ++ "\x7d"
  | .primaryPrimitiveType _ primitive => "type " ++ typeKindName primitive
  | .recordType _ fields isOpen => "type " ++ fieldBracket (nameOfFields fields) isOpen
  | .tableType _ fields isOpen => "type table " ++ fieldBracket (nameOfFields fields) isOpen
  | .tableTypePrimaryExpression _ primaryExpression => "type table " ++ nameOf primaryExpression
termination_by (sizeOf t, 0)

/-- Renderings of a member list, in declared order. -/
def nameOfList (ts : List TType) : List String :=
  match ts with
  | [] => []
  | t :: rest => nameOf t :: nameOfList rest
termination_by (sizeOf ts, 0)

/-- Renderings of a field list, `key: value`, in insertion order. -/
def nameOfFields (fs : List (String × TType)) : List String :=
  match fs with
  | [] => []
  | (key, value) :: rest => (key ++ ": " ++ nameOf value) :: nameOfFields rest
termination_by (sizeOf fs, 0)

end

/-! ## Driver scenarios -/

/-- The driver's read of a live context out of the map (the object it would
have kept a reference to). -/
def getCtx (s : State) (k : Nat) : Except (InvariantError × State) Node :=
  match mapGet s.nodeIdMapCollection.contextNodeById k with
  | some n => .ok n
  | none => .error (.missingContextNode, s)

/-- Scenario S2 of the spec: a `ListExpression` root (id 1); a closed leaf
`Constant` (id 2); a `Csv` (id 3) holding a closed leaf literal (id 4) and a
closed leaf `Constant` (id 5), itself closed as a non-leaf ast node; and a
second, still open `Csv` (id 6). -/
def scenarioS2 : Except (InvariantError × State) State := do
  let s0 := empty
  let (s1, n1) := startContext s0 .listExpression 0 none none
  let s1 := { s1 with root := { maybeNode := some n1 } }
  let (s2, n2) := startContext s1 .constant 0 (some 0) (some n1)
  let (s3, _) ← endContext s2 n2
    { id := 2, kind := .constant, isLeaf := true, maybeAttributeIndex := some 0 }
  let p1 ← getCtx s3 1
  let (s4, n3) := startContext s3 .csv 1 (some 1) (some p1)
  let (s5, n4) := startContext s4 .literalExpression 1 (some 1) (some n3)
  let (s6, _) ← endContext s5 n4
    { id := 4, kind := .literalExpression, isLeaf := true, maybeAttributeIndex := some 0 }
  let p3 ← getCtx s6 3
  let (s7, n5) := startContext s6 .constant 2 (some 2) (some p3)
  let (s8, _) ← endContext s7 n5
    { id := 5, kind := .constant, isLeaf := true, maybeAttributeIndex := some 1 }
  let p3b ← getCtx s8 3
  let (s9, _) ← endContext s8 p3b
    { id := 3, kind := .csv, isLeaf := false, maybeAttributeIndex := some 1 }
  let p1b ← getCtx s9 1
  let (s10, _) := startContext s9 .csv 3 (some 3) (some p1b)
  pure s10

/-- A root `ListExpression` (id 1, installed as root) with one open child
`Csv` (id 2). -/
def rootWithOneOpenChild : State :=
  let (s1, n1) := startContext empty .listExpression 0 none none
  let s1 := { s1 with root := { maybeNode := some n1 } }
  ((startContext s1 .csv 0 (some 0) (some n1)).1)

/-- The same pair after the child (id 2) was deleted again: id 1 keeps an
empty `childIdsById` entry. -/
def rootWithChildDeleted : Option State :=
  (deleteContext rootWithOneOpenChild 2).toOption.map (·.1)

/-- A root `ListExpression` (id 1, installed as root) whose only child, a
`Constant` (id 2), has been closed as a leaf ast node. -/
def rootWithOneClosedChild : Option State :=
  let (s1, n1) := startContext empty .listExpression 0 none none
  let s1 := { s1 with root := { maybeNode := some n1 } }
  let (s2, n2) := startContext s1 .constant 0 (some 0) (some n1)
  (endContext s2 n2
    { id := 2, kind := .constant, isLeaf := true, maybeAttributeIndex := some 0 }).toOption.map
    (·.1)

/-- A root (id 1) with two children: an open `Constant` (id 2, attribute
index 0) and an open `Csv` (id 3, attribute index 1) whose own single child
(id 4) has been closed as a leaf ast node carrying attribute index 0. -/
def interiorWithClosedChild : Option State :=
  let (s1, n1) := startContext empty .listExpression 0 none none
  let s1 := { s1 with root := { maybeNode := some n1 } }
  let (s2, _) := startContext s1 .constant 0 (some 0) (some n1)
  match getCtx s2 1 with
  | .error _ => none
  | .ok p1 =>
    let (s3, n3) := startContext s2 .csv 1 (some 1) (some p1)
    let (s4, n4) := startContext s3 .literalExpression 1 (some 1) (some n3)
    (endContext s4 n4
      { id := 4, kind := .literalExpression, isLeaf := true,
        maybeAttributeIndex := some 0 }).toOption.map (·.1)

/-- A parent node that was never registered in `contextNodeById`. -/
def phantomParent : Node :=
  { id := 42, kind := .csv, tokenIndexStart := 0, maybeTokenStart := none
    attributeCounter := 5, maybeAstNode := none, maybeAttributeIndex := none }

/-- An open context object (id 7) that does not belong to the empty session. -/
def strayContext : Node :=
  { id := 7, kind := .constant, tokenIndexStart := 0, maybeTokenStart := none
    attributeCounter := 0, maybeAstNode := none, maybeAttributeIndex := none }

/-- A leaf ast node with the stray context's id. -/
def strayAst : AstNode :=
  { id := 7, kind := .constant, isLeaf := true, maybeAttributeIndex := none }

/-! ## Frame lemmas for the state helpers -/

@[simp] theorem syncRoot_coll (s : State) :
    (syncRoot s).nodeIdMapCollection = s.nodeIdMapCollection := by
  unfold syncRoot
  split
  · rfl
  · split <;> rfl

@[simp] theorem syncRoot_idCounter (s : State) : (syncRoot s).idCounter = s.idCounter := by
  unfold syncRoot
  split
  · rfl
  · split <;> rfl

@[simp] theorem syncRoot_leafNodeIds (s : State) : (syncRoot s).leafNodeIds = s.leafNodeIds := by
  unfold syncRoot
  split
  · rfl
  · split <;> rfl

@[simp] theorem leafRemove_coll (s : State) (nodeId : Nat) :
    (leafRemove s nodeId).nodeIdMapCollection = s.nodeIdMapCollection := by
  unfold leafRemove
  cases firstIndexOf s.leafNodeIds nodeId <;> rfl

@[simp] theorem leafRemove_root (s : State) (nodeId : Nat) :
    (leafRemove s nodeId).root = s.root := by
  unfold leafRemove
  cases firstIndexOf s.leafNodeIds nodeId <;> rfl

@[simp] theorem leafRemove_idCounter (s : State) (nodeId : Nat) :
    (leafRemove s nodeId).idCounter = s.idCounter := by
  unfold leafRemove
  cases firstIndexOf s.leafNodeIds nodeId <;> rfl

/-! ## Claim theorems -/

/-- The root node of scenario S2's final state. -/
def s2RootNode : Node :=
  { id := 1, kind := .listExpression, tokenIndexStart := 0, maybeTokenStart := none
    attributeCounter := 3, maybeAstNode := none, maybeAttributeIndex := none }

/-- The still-open Csv (id 6) of scenario S2's final state. -/
def s2OpenCsv : Node :=
  { id := 6, kind := .csv, tokenIndexStart := 3, maybeTokenStart := some 3
    attributeCounter := 0, maybeAstNode := none, maybeAttributeIndex := some 2 }

/-- The state scenario S2 ends in, written out. -/
def scenarioS2Result : State :=
  { root := { maybeNode := some s2RootNode }
    nodeIdMapCollection :=
      { astNodeById :=
          [ (2, { id := 2, kind := .constant, isLeaf := true, maybeAttributeIndex := some 0 }),
            (4, { id := 4, kind := .literalExpression, isLeaf := true, maybeAttributeIndex := some 0 }),
            (5, { id := 5, kind := .constant, isLeaf := true, maybeAttributeIndex := some 1 }),
            (3, { id := 3, kind := .csv, isLeaf := false, maybeAttributeIndex := some 1 }) ]
        contextNodeById := [(1, s2RootNode), (6, s2OpenCsv)]
        parentIdById := [(2, 1), (3, 1), (4, 3), (5, 3), (6, 1)]
        childIdsById := [(1, [2, 3, 6]), (3, [4, 5])] }
    idCounter := 6
    leafNodeIds := [2, 4, 5] }

/-- C1: running scenario S2 (ListExpression root id 1; closed leaf Constant
id 2; Csv id 3 closing over closed leaves id 4 and id 5; open Csv id 6)
succeeds and leaves `contextNodeById` with exactly the keys {1, 6},
`astNodeById` with exactly the keys {2, 3, 4, 5}, `childIdsById` of id 1 as
the ordered list [2, 3, 6], `leafNodeIds` as [2, 4, 5], and `idCounter` at
6. -/
theorem scenarioS2_final_state :
    scenarioS2.toOption = some scenarioS2Result
    ∧ (∀ k, (mapGet scenarioS2Result.nodeIdMapCollection.contextNodeById k).isSome
          ↔ k ∈ ([1, 6] : List Nat))
    ∧ (∀ k, (mapGet scenarioS2Result.nodeIdMapCollection.astNodeById k).isSome
          ↔ k ∈ ([2, 3, 4, 5] : List Nat))
    ∧ mapGet scenarioS2Result.nodeIdMapCollection.childIdsById 1 = some [2, 3, 6]
    ∧ scenarioS2Result.leafNodeIds = [2, 4, 5]
    ∧ scenarioS2Result.idCounter = 6 := by
  refine ⟨by decide, ?_, ?_, by decide, by decide, by decide⟩
  · intro k
    simp only [scenarioS2Result, mapGet, List.mem_cons, List.not_mem_nil, or_false]
    by_cases h1 : (1 : Nat) = k <;> by_cases h6 : (6 : Nat) = k <;>
      simp [h1, h6, Ne.symm, eq_comm]
  · intro k
    simp only [scenarioS2Result, mapGet, List.mem_cons, List.not_mem_nil, or_false]
    by_cases h2 : (2 : Nat) = k <;> by_cases h3 : (3 : Nat) = k <;>
      by_cases h4 : (4 : Nat) = k <;> by_cases h5 : (5 : Nat) = k <;>
      simp [h2, h3, h4, h5, Ne.symm, eq_comm]

/-- C9: rendering the DefinedFunction of scenario S6 (param1: number,
param2: nullable number, param3: optional number, param4: optional nullable
number, returning any) yields exactly the expected arrow-form string; in
general the optional marker precedes nullable in a parameter rendering,
DefinedFunction renders as `(params) => returnType`, and FunctionType
renders as `type function (params) returnType` with no arrow. -/
theorem nameOf_definedFunction_S6 :
    nameOf (.definedFunction false
      [ { isNullable := false, isOptional := false, maybeType := some .number, nameLiteral := "param1" },
        { isNullable := true, isOptional := false, maybeType := some .number, nameLiteral := "param2" },
        { isNullable := false, isOptional := true, maybeType := some .number, nameLiteral := "param3" },
        { isNullable := true, isOptional := true, maybeType := some .number, nameLiteral := "param4" } ]
      (.primitive false .any))
      = "(param1: number, param2: nullable number, param3: optional number, param4: optional nullable number) => any"
    ∧ (∀ (nm : String) (k : TypeKind),
        nameOfFunctionParameter
            { isNullable := true, isOptional := true, maybeType := some k, nameLiteral := nm }
          = nm ++ ": optional nullable " ++ typeKindName k)
    ∧ (∀ (ps : List FunctionParameter) (ret : TType),
        nameOf (.definedFunction false ps ret)
          = "(" ++ String.intercalate ", " (ps.map nameOfFunctionParameter) ++ ") => "
              ++ nameOf ret)
    ∧ (∀ (ps : List FunctionParameter) (ret : TType),
        nameOf (.functionType false ps ret)
          = "type function (" ++ String.intercalate ", " (ps.map nameOfFunctionParameter)
              ++ ") " ++ nameOf ret) := by
  refine ⟨?_, ?_, ?_, ?_⟩
  · simp [nameOf, nameOfBase, TType.isNullableFlag, typeKindName, nameOfList, nameOfFields,
      nameOfFunctionParameter, fieldBracket, String.intercalate]
    rfl
  · intro nm k
    show nm ++ ": " ++ "optional " ++ "nullable " ++ typeKindName k = _
    rw [String.append_assoc (nm ++ ": ") "optional " "nullable "]
    rw [String.append_assoc nm ": " ("optional " ++ "nullable ")]
    rfl
  · intro ps ret
    rw [nameOf]
    simp only [TType.isNullableFlag, Bool.false_eq_true, if_false]
    rw [nameOfBase, String.empty_append]
  · intro ps ret
    rw [nameOf]
    simp only [TType.isNullableFlag, Bool.false_eq_true, if_false]
    rw [nameOfBase, String.empty_append]

/-- C10 counterexample: ending the stray context (id 7, a leaf, not
registered in the empty session) does raise `InvariantError` after having
appended 7 to `leafNodeIds` — but contrary to the claim, the ast node has
NOT been recorded in `astNodeById` when the error is raised: the
`astNodeById.set` of the source sits after the failing delete. -/
theorem endContext_error_ast_not_recorded :
    (match endContext empty strayContext strayAst with
     | .error (e, sErr) =>
       (decide (e = .contextNotInState),
        (mapGet sErr.nodeIdMapCollection.astNodeById 7).isSome,
        sErr.leafNodeIds)
     | .ok _ => (false, true, []))
    = (true, false, [7]) := by decide

/-- C10 amended: for a context whose `maybeAstNode` is unset and whose id
matches the ast node's, but which is not registered in `contextNodeById`,
`endContext` raises the "can't end a context that doesn't belong to state"
`InvariantError` only after appending the id to `leafNodeIds` (when the ast
node is a leaf); `astNodeById` and `contextNodeById` are untouched at that
point, the recording of the ast node being ordered after the failing
delete. -/
theorem endContext_error_after_leaf_push (s : State) (c : Node) (a : AstNode)
    (h1 : c.maybeAstNode = none) (h2 : c.id = a.id)
    (h3 : mapGet s.nodeIdMapCollection.contextNodeById c.id = none) :
    endContext s c a
      = .error (.contextNotInState,
          { s with leafNodeIds :=
              if a.isLeaf then s.leafNodeIds ++ [c.id] else s.leafNodeIds }) := by
  have h3a : mapGet s.nodeIdMapCollection.contextNodeById a.id = none := by
    rw [← h2]; exact h3
  cases ha : a.isLeaf <;>
    simp [endContext, h1, h2, h3, h3a, ha]

/-- Witness for the amended C10 theorem at the stray context of the empty
session. -/
theorem endContext_error_after_leaf_push_witness :
    strayContext.maybeAstNode = none
    ∧ strayContext.id = strayAst.id
    ∧ mapGet empty.nodeIdMapCollection.contextNodeById strayContext.id = none
    ∧ endContext empty strayContext strayAst
        = .error (.contextNotInState,
            { empty with leafNodeIds :=
                if strayAst.isLeaf then empty.leafNodeIds ++ [strayContext.id]
                else empty.leafNodeIds }) :=
  ⟨rfl, rfl, rfl, endContext_error_after_leaf_push empty strayContext strayAst rfl rfl rfl⟩

/-- A session holding a single root context (id 1). -/
def singleRootState : State := (startContext empty .listExpression 0 none none).1

/-- C7 counterexample: `startContext` contains no failure path at all.  With
a claimed parent (id 42) that is absent from `contextNodeById`, the call
still completes, allocating id 2, registering the new context, and wiring
`parentIdById` and `childIdsById` towards the phantom id — where the claim
demands an `InvariantError`. -/
theorem startContext_succeeds_with_phantom_parent :
    (mapGet singleRootState.nodeIdMapCollection.contextNodeById phantomParent.id,
     (let r := startContext singleRootState .constant 0 none (some phantomParent)
      ((mapGet r.1.nodeIdMapCollection.contextNodeById 2).isSome,
       r.2.id,
       mapGet r.1.nodeIdMapCollection.parentIdById 2,
       mapGet r.1.nodeIdMapCollection.childIdsById 42)))
    = (none, (true, 2, some 42, some [2])) := by decide

/-- C7 amended: `startContext` never fails.  For every session and every
claimed parent — registered or not — it allocates the fresh id
`idCounter + 1`, bumps the counter, registers the returned context under the
fresh id, records the parent edge, and appends the fresh id to the parent's
children list (creating it when missing); without a parent it allocates and
registers likewise. -/
theorem startContext_total_effects (s : State) (k : NodeKind) (t : Nat)
    (mt : Option Token) (p : Node) :
    ((startContext s k t mt (some p)).1.idCounter = s.idCounter + 1
     ∧ (startContext s k t mt (some p)).2.id = s.idCounter + 1
     ∧ mapGet (startContext s k t mt (some p)).1.nodeIdMapCollection.contextNodeById
         (s.idCounter + 1) = some (startContext s k t mt (some p)).2
     ∧ mapGet (startContext s k t mt (some p)).1.nodeIdMapCollection.parentIdById
         (s.idCounter + 1) = some p.id
     ∧ mapGet (startContext s k t mt (some p)).1.nodeIdMapCollection.childIdsById p.id
         = some ((mapGet s.nodeIdMapCollection.childIdsById p.id).getD [] ++ [s.idCounter + 1]))
    ∧ ((startContext s k t mt none).1.idCounter = s.idCounter + 1
       ∧ mapGet (startContext s k t mt none).1.nodeIdMapCollection.contextNodeById
           (s.idCounter + 1) = some (startContext s k t mt none).2) := by
  constructor
  · refine ⟨?_, ?_, ?_, ?_, ?_⟩
    · simp [startContext]
    · simp [startContext]
    · simp [startContext]
    · simp [startContext]
    · cases h : mapGet s.nodeIdMapCollection.childIdsById p.id <;>
        simp [startContext, h]
  · exact ⟨by simp [startContext], by simp [startContext]⟩

/-- The closed-child root state, unwrapped. -/
def rootClosedChildState : State := rootWithOneClosedChild.getD empty

/-- The root node (id 1) of `rootClosedChildState`. -/
def c3RootNode : Node :=
  { id := 1, kind := .listExpression, tokenIndexStart := 0, maybeTokenStart := none
    attributeCounter := 1, maybeAstNode := none, maybeAttributeIndex := none }

/-- The closed leaf ast node (id 2) of `rootClosedChildState`. -/
def c3ChildAst : AstNode :=
  { id := 2, kind := .constant, isLeaf := true, maybeAttributeIndex := some 0 }

/-- C3 counterexample: deleting the root (id 1) whose only child (id 2) is
already closed leaves `root.maybeNode` still holding the deleted node —
its id is 1, not the closed child's id 2 — and id 1 is afterwards in
neither `contextNodeById` nor `astNodeById`, so the root handle cannot be
resolved through XOR lookup, contrary to the claim. -/
theorem deleteContext_root_closed_child_dangling :
    (match deleteContext rootClosedChildState 1 with
     | .ok (sAfter, _) =>
       (Option.map Node.id sAfter.root.maybeNode,
        (mapGet sAfter.nodeIdMapCollection.contextNodeById 1).isSome,
        (mapGet sAfter.nodeIdMapCollection.astNodeById 1).isSome)
     | .error _ => (none, true, true))
    = (some 1, false, false)
    ∧ (some 1 : Option Nat) ≠ some 2 := by
  refine ⟨by decide, by decide⟩

/-- C3 amended: for a root context `r` (no parent, exactly one child `c`),
`deleteContext` on `r` sets `root.maybeNode` to the child context if and
only if the child is still open; when the child is already closed the root
handle is left unchanged, still holding the deleted node `r`, whose id is
afterwards in neither realm (so XOR lookup of the root handle fails). -/
theorem deleteContext_root_collapse (s : State) (r : Node) (c : Nat)
    (hroot : s.root.maybeNode = some r)
    (halias : mapGet s.nodeIdMapCollection.contextNodeById r.id = some r)
    (hparent : mapGet s.nodeIdMapCollection.parentIdById r.id = none)
    (hchild : mapGet s.nodeIdMapCollection.childIdsById r.id = some [c])
    (hne : c ≠ r.id)
    (hastroot : mapGet s.nodeIdMapCollection.astNodeById r.id = none) :
    (∀ cn, mapGet s.nodeIdMapCollection.contextNodeById c = some cn → cn.id = c →
      (match deleteContext s r.id with
       | .ok (sAfter, mp) =>
         mp = none
         ∧ sAfter.root.maybeNode = some { cn with maybeAttributeIndex := r.maybeAttributeIndex }
       | .error _ => False))
    ∧ (mapGet s.nodeIdMapCollection.contextNodeById c = none →
        ∀ an, mapGet s.nodeIdMapCollection.astNodeById c = some an →
          (match deleteContext s r.id with
           | .ok (sAfter, mp) =>
             mp = none
             ∧ sAfter.root.maybeNode = some r
             ∧ mapGet sAfter.nodeIdMapCollection.contextNodeById r.id = none
             ∧ mapGet sAfter.nodeIdMapCollection.astNodeById r.id = none
           | .error _ => False)) := by
  constructor
  · intro cn hcn hcnid
    simp only [deleteContext, halias, leafRemove_coll, leafRemove_root, hparent, hchild,
      List.length_cons, List.length_nil, List.headD, inheritAttributeIndex, deleteFinish,
      syncRoot, hcn, hcnid, hne]
    simp [hne, hcn, hcnid]
  · intro hcnone an han
    simp only [deleteContext, halias, leafRemove_coll, leafRemove_root, hparent, hchild,
      List.length_cons, List.length_nil, List.headD, inheritAttributeIndex, deleteFinish,
      syncRoot, hcnone, han, hne, hroot]
    simp [hne, Ne.symm hne, hcnone, han, hroot, halias, hastroot]

/-- Witness for the amended C3 theorem, at the closed-child case of
`rootClosedChildState`. -/
theorem deleteContext_root_collapse_witness :
    (rootClosedChildState.root.maybeNode = some c3RootNode
     ∧ mapGet rootClosedChildState.nodeIdMapCollection.contextNodeById c3RootNode.id
         = some c3RootNode
     ∧ mapGet rootClosedChildState.nodeIdMapCollection.parentIdById c3RootNode.id = none
     ∧ mapGet rootClosedChildState.nodeIdMapCollection.childIdsById c3RootNode.id = some [2]
     ∧ (2 : Nat) ≠ c3RootNode.id
     ∧ mapGet rootClosedChildState.nodeIdMapCollection.astNodeById c3RootNode.id = none
     ∧ mapGet rootClosedChildState.nodeIdMapCollection.contextNodeById 2 = none
     ∧ mapGet rootClosedChildState.nodeIdMapCollection.astNodeById 2 = some c3ChildAst)
    ∧ (match deleteContext rootClosedChildState c3RootNode.id with
       | .ok (sAfter, mp) =>
         mp = none
         ∧ sAfter.root.maybeNode = some c3RootNode
         ∧ mapGet sAfter.nodeIdMapCollection.contextNodeById c3RootNode.id = none
         ∧ mapGet sAfter.nodeIdMapCollection.astNodeById c3RootNode.id = none
       | .error _ => False) :=
  ⟨⟨by decide, by decide, by decide, by decide, by decide, by decide, by decide, by decide⟩,
   (deleteContext_root_collapse rootClosedChildState c3RootNode 2
      (by decide) (by decide) (by decide) (by decide) (by decide) (by decide)).2
     (by decide) c3ChildAst (by decide)⟩

/-! ## The ast realm across the lifecycle (C4) -/

/-- `removeOrReplaceChildId` never touches the ast realm. -/
theorem removeOrReplaceChildId_ast (coll : Collection) (p c : Nat) (mr : Option Nat) :
    (match removeOrReplaceChildId coll p c mr with
     | .ok coll2 => coll2.astNodeById = coll.astNodeById
     | .error _ => True) := by
  cases h1 : mapGet coll.childIdsById p with
  | none => simp [removeOrReplaceChildId, h1]
  | some childIds =>
    cases h2 : firstIndexOf childIds c with
    | none => simp [removeOrReplaceChildId, h1, h2]
    | some i =>
      cases mr with
      | none => simp [removeOrReplaceChildId, h1, h2]
      | some rid => by_cases h3 : rid = 0 <;> simp [removeOrReplaceChildId, h1, h2, h3]

/-- `deleteFinish` never touches the ast realm, whether the final parent
lookup succeeds or throws. -/
theorem deleteFinish_ast (s : State) (nid : Nat) (mp : Option Nat) :
    (stateOf (deleteFinish s nid mp)).nodeIdMapCollection.astNodeById
      = s.nodeIdMapCollection.astNodeById := by
  unfold deleteFinish
  cases mp with
  | none => simp [stateOf]
  | some pid =>
    cases h : mapGet (mapDelete s.nodeIdMapCollection.contextNodeById nid).1 pid <;>
      simp [stateOf, h]
/-- `deleteContext` leaves `astNodeById` unchanged except, possibly, for a
single entry whose `maybeAttributeIndex` is overwritten (the closed child
inheriting the deleted node's attribute index). -/
theorem deleteContext_ast_shape (s : State) (nid : Nat) :
    (stateOf (deleteContext s nid)).nodeIdMapCollection.astNodeById
      = s.nodeIdMapCollection.astNodeById
    ∨ ∃ c idx,
        (stateOf (deleteContext s nid)).nodeIdMapCollection.astNodeById
          = mapAdjust s.nodeIdMapCollection.astNodeById c
              (fun a => { a with maybeAttributeIndex := idx }) := by
  cases h0 : mapGet s.nodeIdMapCollection.contextNodeById nid with
  | none => left; simp [deleteContext, h0, stateOf]
  | some node =>
    cases h1 : mapGet s.nodeIdMapCollection.childIdsById nid with
    | some childIds =>
      by_cases h2 : childIds.length ≠ 1
      · left; simp [deleteContext, h0, h1, h2, stateOf]
      · push_neg at h2
        obtain ⟨c0, rfl⟩ : ∃ c0, childIds = [c0] := by
          cases childIds with
          | nil => simp at h2
          | cons a tl =>
            cases tl with
            | nil => exact ⟨a, rfl⟩
            | cons b tl2 => simp at h2
        cases h3 : mapGet s.nodeIdMapCollection.parentIdById nid with
        | none =>
          cases h4 : mapGet s.nodeIdMapCollection.contextNodeById c0 with
          | some cc =>
            left
            simp [deleteContext, h0, h1, h3, h4, inheritAttributeIndex]
            rw [deleteFinish_ast]
          | none =>
            cases h5 : mapGet s.nodeIdMapCollection.astNodeById c0 with
            | some an =>
              right
              refine ⟨c0, node.maybeAttributeIndex, ?_⟩
              simp [deleteContext, h0, h1, h3, h4, h5, inheritAttributeIndex]
              rw [deleteFinish_ast]
            | none =>
              left
              simp [deleteContext, h0, h1, h3, h4, h5, stateOf, inheritAttributeIndex]
        | some pid =>
          cases hrr : removeOrReplaceChildId s.nodeIdMapCollection pid nid (some c0) with
          | error e =>
            left; simp [deleteContext, h0, h1, h3, hrr, stateOf]
          | ok coll2 =>
            have hast2 : coll2.astNodeById = s.nodeIdMapCollection.astNodeById := by
              have hh := removeOrReplaceChildId_ast s.nodeIdMapCollection pid nid (some c0)
              rw [hrr] at hh
              exact hh
            cases h4 : mapGet coll2.contextNodeById c0 with
            | some cc =>
              left
              simp [deleteContext, h0, h1, h3, hrr, h4, inheritAttributeIndex]
              rw [deleteFinish_ast]
              simp [hast2]
            | none =>
              cases h5 : mapGet coll2.astNodeById c0 with
              | some an =>
                right
                refine ⟨c0, node.maybeAttributeIndex, ?_⟩
                have h5a : mapGet s.nodeIdMapCollection.astNodeById c0 = some an := by
                  rw [← hast2]; exact h5
                simp [deleteContext, h0, h1, h3, hrr, h4, h5, h5a, inheritAttributeIndex]
                rw [deleteFinish_ast]
                simp [hast2]
              | none =>
                left
                have h5a : mapGet s.nodeIdMapCollection.astNodeById c0 = none := by
                  rw [← hast2]; exact h5
                simp [deleteContext, h0, h1, h3, hrr, h4, h5, h5a, stateOf,
                  inheritAttributeIndex, hast2]
    | none =>
      cases h3 : mapGet s.nodeIdMapCollection.parentIdById nid with
      | none =>
        left
        simp [deleteContext, h0, h1, h3]
        rw [deleteFinish_ast]
        simp
      | some pid =>
        by_cases hz : pid = 0
        · left
          simp [deleteContext, h0, h1, h3, hz]
          rw [deleteFinish_ast]
          simp
        · cases hrr : removeOrReplaceChildId s.nodeIdMapCollection pid nid none with
          | error e => left; simp [deleteContext, h0, h1, h3, hz, hrr, stateOf]
          | ok coll2 =>
            have hast2 : coll2.astNodeById = s.nodeIdMapCollection.astNodeById := by
              have hh := removeOrReplaceChildId_ast s.nodeIdMapCollection pid nid none
              rw [hrr] at hh
              exact hh
            left
            simp [deleteContext, h0, h1, h3, hz, hrr]
            rw [deleteFinish_ast]
            simp [hast2]

/-- The interior-collapse state, unwrapped. -/
def interiorClosedChildState : State := interiorWithClosedChild.getD empty

/-- The closed leaf ast node (id 4) before its parent Csv (id 3) is deleted. -/
def c4AstBefore : AstNode :=
  { id := 4, kind := .literalExpression, isLeaf := true, maybeAttributeIndex := some 0 }

/-- The same ast node after the deletion: `maybeAttributeIndex` became 1. -/
def c4AstAfter : AstNode :=
  { id := 4, kind := .literalExpression, isLeaf := true, maybeAttributeIndex := some 1 }

/-- C4 counterexample: the closed leaf ast node id 4 carries attribute index
0; deleting its parent context (id 3, itself the second child of the root,
attribute index 1) overwrites the closed ast node's `maybeAttributeIndex`
with 1 — a closed ast node IS mutated by a later lifecycle operation, and
the mutated field differs from its recorded value. -/
theorem deleteContext_mutates_closed_ast :
    ((mapGet interiorClosedChildState.nodeIdMapCollection.astNodeById 4).map
        AstNode.maybeAttributeIndex,
     (match deleteContext interiorClosedChildState 3 with
      | .ok (sAfter, _) =>
        (mapGet sAfter.nodeIdMapCollection.astNodeById 4).map AstNode.maybeAttributeIndex
      | .error _ => none))
    = (some (some 0), some (some 1))
    ∧ (some 0 : Option Nat) ≠ some 1 := ⟨by decide, by decide⟩

/-- C4 amended: ast nodes are immutable for `startContext` (which never
touches the ast realm) and for `endContext` (which only inserts the freshly
closed node); `deleteContext` however does mutate the single closed child of
a deleted context — and only in its `maybeAttributeIndex` field, which it
overwrites with the deleted node's attribute index; `id`, `kind` and
`isLeaf` of every recorded ast node survive every operation. -/
theorem astNode_mutation_profile :
    (∀ (s : State) (k : NodeKind) (t : Nat) (mt : Option Token) (mp : Option Node),
       (startContext s k t mt mp).1.nodeIdMapCollection.astNodeById
         = s.nodeIdMapCollection.astNodeById)
    ∧ (∀ (s : State) (cNode : Node) (a : AstNode) (i : Nat), i ≠ a.id →
        mapGet (stateOf (endContext s cNode a)).nodeIdMapCollection.astNodeById i
          = mapGet s.nodeIdMapCollection.astNodeById i)
    ∧ (∀ (s : State) (nid i : Nat) (n n' : AstNode),
        mapGet s.nodeIdMapCollection.astNodeById i = some n →
        mapGet (stateOf (deleteContext s nid)).nodeIdMapCollection.astNodeById i = some n' →
        n'.id = n.id ∧ n'.kind = n.kind ∧ n'.isLeaf = n.isLeaf) := by
  refine ⟨?_, ?_, ?_⟩
  · intro s k t mt mp
    cases mp <;> simp [startContext]
  · intro s cNode a i hi
    by_cases e1 : cNode.maybeAstNode.isSome
    · simp [endContext, e1, stateOf]
    · by_cases e2 : cNode.id = a.id
      · cases ha : a.isLeaf <;>
          cases hc : mapGet s.nodeIdMapCollection.contextNodeById a.id <;>
          simp [endContext, e1, e2, ha, hc, stateOf, hi]
      · have he : endContext s cNode a = .error (.differingNodeIds, s) := by
          unfold endContext
          simp [e1, e2]
        rw [he]
        rfl
  · intro s nid i n n' h1 h2
    rcases deleteContext_ast_shape s nid with h | ⟨c, idx, h⟩
    · rw [h, h1] at h2
      injection h2 with h2
      subst h2
      exact ⟨rfl, rfl, rfl⟩
    · rw [h] at h2
      by_cases hic : i = c
      · subst hic
        rw [mapGet_adjust_self, h1] at h2
        simp only [Option.map] at h2
        injection h2 with h2
        subst h2
        exact ⟨rfl, rfl, rfl⟩
      · rw [mapGet_adjust_ne _ _ _ _ hic, h1] at h2
        injection h2 with h2
        subst h2
        exact ⟨rfl, rfl, rfl⟩

/-- Witness for the amended C4 theorem: the deletion of context 3 above
preserves id, kind and leaf flag of ast node 4 (only its attribute index
moves from 0 to 1). -/
theorem astNode_mutation_profile_witness :
    ((4 : Nat) ≠ strayAst.id
     ∧ mapGet (stateOf (endContext interiorClosedChildState strayContext strayAst)).nodeIdMapCollection.astNodeById 4
       = mapGet interiorClosedChildState.nodeIdMapCollection.astNodeById 4)
    ∧ (mapGet interiorClosedChildState.nodeIdMapCollection.astNodeById 4 = some c4AstBefore
       ∧ mapGet (stateOf (deleteContext interiorClosedChildState 3)).nodeIdMapCollection.astNodeById 4
           = some c4AstAfter
       ∧ c4AstAfter.id = c4AstBefore.id
       ∧ c4AstAfter.kind = c4AstBefore.kind
       ∧ c4AstAfter.isLeaf = c4AstBefore.isLeaf) :=
  ⟨⟨by decide,
    astNode_mutation_profile.2.1 interiorClosedChildState strayContext strayAst 4 (by decide)⟩,
   by decide, by decide,
   astNode_mutation_profile.2.2 interiorClosedChildState 3 4 c4AstBefore c4AstAfter
     (by decide) (by decide)⟩

/-! ## Child-count rules of deleteContext (C2) -/

/-- The root-with-deleted-child state, unwrapped. -/
def rootChildDeletedState : State := rootWithChildDeleted.getD empty

/-- The open child context (id 2) of `rootWithOneOpenChild`. -/
def c2OpenChild : Node :=
  { id := 2, kind := .csv, tokenIndexStart := 0, maybeTokenStart := some 0
    attributeCounter := 0, maybeAstNode := none, maybeAttributeIndex := some 0 }

/-- C2 counterexample: after its only child was deleted, node 1 currently
has zero children but keeps an empty `childIdsById` entry, and
`deleteContext` on it fails with `InvariantError` — the claim demands that a
zero-child deletion succeed regardless of previously deleted children. -/
theorem deleteContext_zero_children_entry_fails :
    mapGet rootChildDeletedState.nodeIdMapCollection.childIdsById 1 = some []
    ∧ (mapGet rootChildDeletedState.nodeIdMapCollection.contextNodeById 1).isSome = true
    ∧ (match deleteContext rootChildDeletedState 1 with
       | .error (e, _) => decide (e = .childIdsLengthMismatch)
       | .ok _ => false) = true :=
  ⟨by decide, by decide, by decide⟩

/-- C2 amended: `deleteContext` fails with `InvariantError` whenever the
node has a `childIdsById` entry whose length differs from one — including
the empty entry left behind when the node's former children were deleted;
deleting two-or-more children fails as the claim states.  A zero-child
deletion succeeds only when the node has NO `childIdsById` entry and, when a
parent edge exists, the parent is live, distinct, non-zero, and lists the
node among its children. -/
theorem deleteContext_child_count_rules (s : State) (nid : Nat) :
    (∀ (n : Node) (cs : List Nat),
       mapGet s.nodeIdMapCollection.contextNodeById nid = some n →
       mapGet s.nodeIdMapCollection.childIdsById nid = some cs →
       cs.length ≠ 1 →
       ∃ st, deleteContext s nid = .error (.childIdsLengthMismatch, st))
    ∧ (∀ n : Node, mapGet s.nodeIdMapCollection.contextNodeById nid = some n →
        mapGet s.nodeIdMapCollection.childIdsById nid = none →
        (mapGet s.nodeIdMapCollection.parentIdById nid = none
         ∨ ∃ pid p cs i, mapGet s.nodeIdMapCollection.parentIdById nid = some pid
             ∧ pid ≠ nid ∧ pid ≠ 0
             ∧ mapGet s.nodeIdMapCollection.contextNodeById pid = some p
             ∧ mapGet s.nodeIdMapCollection.childIdsById pid = some cs
             ∧ firstIndexOf cs nid = some i) →
        (deleteContext s nid).isOk = true) := by
  constructor
  · intro n cs h1 h2 hlen
    exact ⟨leafRemove s nid, by simp [deleteContext, h1, h2, hlen]⟩
  · intro n h1 h2 hp
    rcases hp with hnone | ⟨pid, p, cs, i, hpid, hne, hz, hctx, hcs, hidx⟩
    · simp [deleteContext, h1, h2, hnone, deleteFinish, Except.isOk, Except.toBool]
    · simp [deleteContext, h1, h2, hpid, hz, removeOrReplaceChildId, hcs, hidx,
        deleteFinish, hne, Ne.symm hne, hctx, Except.isOk, Except.toBool]

/-- Witness for the amended C2 theorem: node 1 of the deleted-child state
fails (its children entry is the empty list); the leaf child 2 of the
open-child state deletes fine. -/
theorem deleteContext_child_count_rules_witness :
    (mapGet rootChildDeletedState.nodeIdMapCollection.contextNodeById 1 = some c3RootNode
     ∧ mapGet rootChildDeletedState.nodeIdMapCollection.childIdsById 1 = some []
     ∧ ([] : List Nat).length ≠ 1
     ∧ ∃ st, deleteContext rootChildDeletedState 1 = .error (.childIdsLengthMismatch, st))
    ∧ (mapGet rootWithOneOpenChild.nodeIdMapCollection.contextNodeById 2 = some c2OpenChild
       ∧ mapGet rootWithOneOpenChild.nodeIdMapCollection.childIdsById 2 = none
       ∧ (deleteContext rootWithOneOpenChild 2).isOk = true) :=
  ⟨⟨by decide, by decide, by decide,
    (deleteContext_child_count_rules rootChildDeletedState 1).1 c3RootNode []
      (by decide) (by decide) (by decide)⟩,
   ⟨by decide, by decide,
    (deleteContext_child_count_rules rootWithOneOpenChild 2).2 c2OpenChild
      (by decide) (by decide)
      (Or.inr ⟨1, c3RootNode, [2], 0, by decide, by decide, by decide, by decide,
        by decide, by decide⟩)⟩⟩

/-! ## Interior collapse (C5) -/

/-- C5: for a three-generation chain root→A→B (A open, exactly one child B,
parent edge to the root), `deleteContext(A)` splices B into A's former slot
in the root's children list (all sibling positions preserved), re-parents B
to the root, makes B inherit A's `maybeAttributeIndex`, removes A from all
three mappings, and returns the parent node. -/
theorem deleteContext_interior_collapse (s : State) (aId bId rootId : Nat)
    (a b rootNode : Node) (cs : List Nat) (i : Nat)
    (ha : mapGet s.nodeIdMapCollection.contextNodeById aId = some a)
    (hp : mapGet s.nodeIdMapCollection.parentIdById aId = some rootId)
    (hchild : mapGet s.nodeIdMapCollection.childIdsById aId = some [bId])
    (hb : mapGet s.nodeIdMapCollection.contextNodeById bId = some b)
    (hroot : mapGet s.nodeIdMapCollection.contextNodeById rootId = some rootNode)
    (hcs : mapGet s.nodeIdMapCollection.childIdsById rootId = some cs)
    (hidx : firstIndexOf cs aId = some i)
    (hb0 : bId ≠ 0)
    (hab : bId ≠ aId) (hra : rootId ≠ aId) (hrb : rootId ≠ bId) :
    (match deleteContext s aId with
     | .ok (st, mp) =>
       mp = some rootNode
       ∧ mapGet st.nodeIdMapCollection.childIdsById rootId
           = some (cs.take i ++ [bId] ++ cs.drop (i + 1))
       ∧ mapGet st.nodeIdMapCollection.parentIdById bId = some rootId
       ∧ mapGet st.nodeIdMapCollection.contextNodeById bId
           = some { b with maybeAttributeIndex := a.maybeAttributeIndex }
       ∧ mapGet st.nodeIdMapCollection.contextNodeById aId = none
       ∧ mapGet st.nodeIdMapCollection.childIdsById aId = none
       ∧ mapGet st.nodeIdMapCollection.parentIdById aId = none
     | .error _ => False) := by
  simp only [deleteContext, ha, hp, hchild, leafRemove_coll, List.length_cons,
    List.length_nil, List.headD, removeOrReplaceChildId, hcs, hidx, hb0,
    inheritAttributeIndex, deleteFinish]
  simp [ha, hp, hchild, hb, hroot, hcs, hidx, hb0, hab, hra, hrb,
    Ne.symm hab, Ne.symm hra, Ne.symm hrb]

/-- A three-generation chain: root ListExpression (id 1), Csv A (id 2),
literal B (id 3), all open. -/
def threeChainState : State :=
  let r1 := startContext empty .listExpression 0 none none
  let s1 := { r1.1 with root := { maybeNode := some r1.2 } }
  let r2 := startContext s1 .csv 0 (some 0) (some r1.2)
  (startContext r2.1 .literalExpression 1 (some 1) (some r2.2)).1

/-- Node A (id 2) of the three-generation chain. -/
def c5NodeA : Node :=
  { id := 2, kind := .csv, tokenIndexStart := 0, maybeTokenStart := some 0
    attributeCounter := 1, maybeAstNode := none, maybeAttributeIndex := some 0 }

/-- Node B (id 3) of the three-generation chain. -/
def c5NodeB : Node :=
  { id := 3, kind := .literalExpression, tokenIndexStart := 1, maybeTokenStart := some 1
    attributeCounter := 0, maybeAstNode := none, maybeAttributeIndex := some 0 }

/-- Witness for C5 at the three-generation chain. -/
theorem deleteContext_interior_collapse_witness :
    (mapGet threeChainState.nodeIdMapCollection.contextNodeById 2 = some c5NodeA
     ∧ mapGet threeChainState.nodeIdMapCollection.parentIdById 2 = some 1
     ∧ mapGet threeChainState.nodeIdMapCollection.childIdsById 2 = some [3]
     ∧ mapGet threeChainState.nodeIdMapCollection.contextNodeById 3 = some c5NodeB
     ∧ mapGet threeChainState.nodeIdMapCollection.contextNodeById 1 = some c3RootNode
     ∧ mapGet threeChainState.nodeIdMapCollection.childIdsById 1 = some [2]
     ∧ firstIndexOf [2] 2 = some 0)
    ∧ (match deleteContext threeChainState 2 with
       | .ok (st, mp) =>
         mp = some c3RootNode
         ∧ mapGet st.nodeIdMapCollection.childIdsById 1
             = some (([2] : List Nat).take 0 ++ [3] ++ ([2] : List Nat).drop 1)
         ∧ mapGet st.nodeIdMapCollection.parentIdById 3 = some 1
         ∧ mapGet st.nodeIdMapCollection.contextNodeById 3
             = some { c5NodeB with maybeAttributeIndex := c5NodeA.maybeAttributeIndex }
         ∧ mapGet st.nodeIdMapCollection.contextNodeById 2 = none
         ∧ mapGet st.nodeIdMapCollection.childIdsById 2 = none
         ∧ mapGet st.nodeIdMapCollection.parentIdById 2 = none
       | .error _ => False) :=
  ⟨⟨by decide, by decide, by decide, by decide, by decide, by decide, by decide⟩,
   deleteContext_interior_collapse threeChainState 2 3 1 c5NodeA c5NodeB c3RootNode [2] 0
     (by decide) (by decide) (by decide) (by decide) (by decide) (by decide) (by decide)
     (by decide) (by decide) (by decide) (by decide)⟩

/-! ## Attribute counters across the lifecycle (C6) -/

/-- `removeOrReplaceChildId` never touches the context realm. -/
theorem removeOrReplaceChildId_ctx (coll : Collection) (p c : Nat) (mr : Option Nat) :
    (match removeOrReplaceChildId coll p c mr with
     | .ok coll2 => coll2.contextNodeById = coll.contextNodeById
     | .error _ => True) := by
  cases h1 : mapGet coll.childIdsById p with
  | none => simp [removeOrReplaceChildId, h1]
  | some childIds =>
    cases h2 : firstIndexOf childIds c with
    | none => simp [removeOrReplaceChildId, h1, h2]
    | some i =>
      cases mr with
      | none => simp [removeOrReplaceChildId, h1, h2]
      | some rid => by_cases h3 : rid = 0 <;> simp [removeOrReplaceChildId, h1, h2, h3]

/-- The context map left behind by `deleteFinish`, in both outcomes. -/
theorem deleteFinish_ctx (s : State) (nid : Nat) (mp : Option Nat) :
    (stateOf (deleteFinish s nid mp)).nodeIdMapCollection.contextNodeById
      = (mapDelete s.nodeIdMapCollection.contextNodeById nid).1 := by
  unfold deleteFinish
  cases mp with
  | none => simp [stateOf]
  | some pid =>
    cases h : mapGet (mapDelete s.nodeIdMapCollection.contextNodeById nid).1 pid <;>
      simp [stateOf, h]

/-- Deleting one entry and overwriting another's `maybeAttributeIndex`
preserves every surviving entry's `attributeCounter`. -/
theorem counter_keep_delete_adjust (m : JsMap Node) (nid c0 : Nat) (idx : Option Nat)
    (i : Nat) (n n' : Node)
    (h1 : mapGet m i = some n)
    (h2 : mapGet (mapDelete (mapAdjust m c0
            (fun c => { c with maybeAttributeIndex := idx })) nid).1 i = some n') :
    n'.attributeCounter = n.attributeCounter := by
  by_cases hin : i = nid
  · subst hin; rw [mapGet_delete_self] at h2; cases h2
  · rw [mapGet_delete_ne _ _ _ hin] at h2
    by_cases hic : i = c0
    · subst hic
      rw [mapGet_adjust_self, h1] at h2
      simp only [Option.map] at h2
      injection h2 with h2
      subst h2
      rfl
    · rw [mapGet_adjust_ne _ _ _ _ hic, h1] at h2
      injection h2 with h2
      subst h2
      rfl

/-- Deleting one entry preserves every surviving entry's counter. -/
theorem counter_keep_delete (m : JsMap Node) (nid i : Nat) (n n' : Node)
    (h1 : mapGet m i = some n)
    (h2 : mapGet (mapDelete m nid).1 i = some n') :
    n'.attributeCounter = n.attributeCounter := by
  by_cases hin : i = nid
  · subst hin; rw [mapGet_delete_self] at h2; cases h2
  · rw [mapGet_delete_ne _ _ _ hin, h1] at h2
    injection h2 with h2
    subst h2
    rfl

/-- `deleteContext` preserves the `attributeCounter` of every surviving
context node, on success and on error alike. -/
theorem deleteContext_counter_keep (s : State) (nid i : Nat) (n n' : Node)
    (h1 : mapGet s.nodeIdMapCollection.contextNodeById i = some n)
    (h2 : mapGet (stateOf (deleteContext s nid)).nodeIdMapCollection.contextNodeById i
            = some n') :
    n'.attributeCounter = n.attributeCounter := by
  have same : ∀ hh : mapGet (stateOf (deleteContext s nid)).nodeIdMapCollection.contextNodeById i
      = mapGet s.nodeIdMapCollection.contextNodeById i, n'.attributeCounter = n.attributeCounter := by
    intro hh
    rw [hh, h1] at h2
    injection h2 with h2
    subst h2
    rfl
  cases h0 : mapGet s.nodeIdMapCollection.contextNodeById nid with
  | none => exact same (by simp [deleteContext, h0, stateOf])
  | some node =>
    cases hc : mapGet s.nodeIdMapCollection.childIdsById nid with
    | some childIds =>
      by_cases hl : childIds.length ≠ 1
      · exact same (by simp [deleteContext, h0, hc, hl, stateOf])
      · push_neg at hl
        obtain ⟨c0, rfl⟩ : ∃ c0, childIds = [c0] := by
          cases childIds with
          | nil => simp at hl
          | cons x tl =>
            cases tl with
            | nil => exact ⟨x, rfl⟩
            | cons y tl2 => simp at hl
        cases hp : mapGet s.nodeIdMapCollection.parentIdById nid with
        | none =>
          cases h4 : mapGet s.nodeIdMapCollection.contextNodeById c0 with
          | some cc =>
            refine counter_keep_delete_adjust s.nodeIdMapCollection.contextNodeById nid c0
              node.maybeAttributeIndex i n n' h1 ?_
            rw [← h2]
            simp [deleteContext, h0, hc, hp, h4, inheritAttributeIndex]
            rw [deleteFinish_ctx]
          | none =>
            cases h5 : mapGet s.nodeIdMapCollection.astNodeById c0 with
            | some an =>
              refine counter_keep_delete s.nodeIdMapCollection.contextNodeById nid i n n' h1 ?_
              rw [← h2]
              simp [deleteContext, h0, hc, hp, h4, h5, inheritAttributeIndex]
              rw [deleteFinish_ctx]
            | none =>
              exact same (by simp [deleteContext, h0, hc, hp, h4, h5, stateOf,
                inheritAttributeIndex])
        | some pid =>
          cases hrr : removeOrReplaceChildId s.nodeIdMapCollection pid nid (some c0) with
          | error e => exact same (by simp [deleteContext, h0, hc, hp, hrr, stateOf])
          | ok coll2 =>
            have hctx2 : coll2.contextNodeById = s.nodeIdMapCollection.contextNodeById := by
              have hh := removeOrReplaceChildId_ctx s.nodeIdMapCollection pid nid (some c0)
              rw [hrr] at hh
              exact hh
            cases h4 : mapGet coll2.contextNodeById c0 with
            | some cc =>
              refine counter_keep_delete_adjust s.nodeIdMapCollection.contextNodeById nid c0
                node.maybeAttributeIndex i n n' h1 ?_
              rw [← h2]
              simp [deleteContext, h0, hc, hp, hrr, h4, inheritAttributeIndex]
              rw [deleteFinish_ctx]
              simp [hctx2]
            | none =>
              have h4a : mapGet s.nodeIdMapCollection.contextNodeById c0 = none := by
                rw [← hctx2]; exact h4
              cases h5 : mapGet coll2.astNodeById c0 with
              | some an =>
                refine counter_keep_delete s.nodeIdMapCollection.contextNodeById nid i n n' h1 ?_
                rw [← h2]
                simp [deleteContext, h0, hc, hp, hrr, h4, h4a, h5, inheritAttributeIndex]
                rw [deleteFinish_ctx]
                simp [hctx2]
              | none =>
                exact same (by simp [deleteContext, h0, hc, hp, hrr, h4, h4a, h5, stateOf,
                  inheritAttributeIndex, hctx2])
    | none =>
      cases hp : mapGet s.nodeIdMapCollection.parentIdById nid with
      | none =>
        refine counter_keep_delete s.nodeIdMapCollection.contextNodeById nid i n n' h1 ?_
        rw [← h2]
        simp [deleteContext, h0, hc, hp]
        rw [deleteFinish_ctx]
        simp
      | some pid =>
        by_cases hz : pid = 0
        · refine counter_keep_delete s.nodeIdMapCollection.contextNodeById nid i n n' h1 ?_
          rw [← h2]
          simp [deleteContext, h0, hc, hp, hz]
          rw [deleteFinish_ctx]
          simp
        · cases hrr : removeOrReplaceChildId s.nodeIdMapCollection pid nid none with
          | error e => exact same (by simp [deleteContext, h0, hc, hp, hz, hrr, stateOf])
          | ok coll2 =>
            have hctx2 : coll2.contextNodeById = s.nodeIdMapCollection.contextNodeById := by
              have hh := removeOrReplaceChildId_ctx s.nodeIdMapCollection pid nid none
              rw [hrr] at hh
              exact hh
            refine counter_keep_delete s.nodeIdMapCollection.contextNodeById nid i n n' h1 ?_
            rw [← h2]
            simp [deleteContext, h0, hc, hp, hz, hrr]
            rw [deleteFinish_ctx]
            simp [hctx2]
/-- C6: a context's `attributeCounter` never decreases.  `startContext`
under a parent increments exactly the parent's counter by one and starts the
new context at zero; `endContext` leaves every surviving context entry
untouched; `deleteContext` — including when it deletes a child context —
never decrements any surviving context's counter. -/
theorem attributeCounter_monotone_profile :
    (∀ (s : State) (k : NodeKind) (t : Nat) (mt : Option Token) (p pn : Node),
       mapGet s.nodeIdMapCollection.contextNodeById p.id = some pn →
       p.id ≠ s.idCounter + 1 →
       mapGet (startContext s k t mt (some p)).1.nodeIdMapCollection.contextNodeById p.id
         = some { pn with attributeCounter := pn.attributeCounter + 1 })
    ∧ (∀ (s : State) (k : NodeKind) (t : Nat) (mt : Option Token) (mp : Option Node) (i : Nat),
        i ≠ s.idCounter + 1 →
        (∀ p : Node, mp = some p → i ≠ p.id) →
        mapGet (startContext s k t mt mp).1.nodeIdMapCollection.contextNodeById i
          = mapGet s.nodeIdMapCollection.contextNodeById i)
    ∧ (∀ (s : State) (k : NodeKind) (t : Nat) (mt : Option Token) (mp : Option Node),
        (startContext s k t mt mp).2.attributeCounter = 0)
    ∧ (∀ (s : State) (c : Node) (a : AstNode) (i : Nat), i ≠ c.id →
        mapGet (stateOf (endContext s c a)).nodeIdMapCollection.contextNodeById i
          = mapGet s.nodeIdMapCollection.contextNodeById i)
    ∧ (∀ (s : State) (nid i : Nat) (n n' : Node),
        mapGet s.nodeIdMapCollection.contextNodeById i = some n →
        mapGet (stateOf (deleteContext s nid)).nodeIdMapCollection.contextNodeById i = some n' →
        n'.attributeCounter = n.attributeCounter) := by
  refine ⟨?_, ?_, ?_, ?_, deleteContext_counter_keep⟩
  · intro s k t mt p pn hpn hfresh
    simp [startContext, mapGet_set_ne _ _ _ _ hfresh, hpn]
  · intro s k t mt mp i hfresh hip
    cases mp with
    | none => simp [startContext, mapGet_set_ne _ _ _ _ hfresh]
    | some p =>
      have hp : i ≠ p.id := hip p rfl
      simp [startContext, mapGet_set_ne _ _ _ _ hfresh, mapGet_adjust_ne _ _ _ _ hp]
  · intro s k t mt mp
    cases mp <;> simp [startContext]
  · intro s c a i hi
    by_cases e1 : c.maybeAstNode.isSome
    · simp [endContext, e1, stateOf]
    · by_cases e2 : c.id = a.id
      · have hi2 : i ≠ a.id := by rw [← e2]; exact hi
        cases ha : a.isLeaf <;>
          cases hc : mapGet s.nodeIdMapCollection.contextNodeById a.id <;>
          simp [endContext, e1, e2, ha, hc, stateOf, hi2]
      · have he : endContext s c a = .error (.differingNodeIds, s) := by
          unfold endContext
          simp [e1, e2]
        rw [he]
        rfl

/-- The root context of `singleRootState` (id 1, counter still zero). -/
def c6RootNode : Node :=
  { id := 1, kind := .listExpression, tokenIndexStart := 0, maybeTokenStart := none
    attributeCounter := 0, maybeAstNode := none, maybeAttributeIndex := none }

/-- Witness for C6: starting a child under the root of `singleRootState`
bumps its counter from 0 to 1 and leaves other ids alone; a failing
`endContext` and the interior collapse of `threeChainState` leave the root's
counter at its old value. -/
theorem attributeCounter_monotone_profile_witness :
    (mapGet singleRootState.nodeIdMapCollection.contextNodeById c6RootNode.id = some c6RootNode
     ∧ c6RootNode.id ≠ singleRootState.idCounter + 1
     ∧ mapGet (startContext singleRootState .csv 0 none
           (some c6RootNode)).1.nodeIdMapCollection.contextNodeById c6RootNode.id
         = some { c6RootNode with attributeCounter := c6RootNode.attributeCounter + 1 })
    ∧ ((3 : Nat) ≠ singleRootState.idCounter + 1
       ∧ mapGet (startContext singleRootState .csv 0 none
             (some c6RootNode)).1.nodeIdMapCollection.contextNodeById 3
           = mapGet singleRootState.nodeIdMapCollection.contextNodeById 3)
    ∧ ((3 : Nat) ≠ strayContext.id
       ∧ mapGet (stateOf (endContext singleRootState strayContext
             strayAst)).nodeIdMapCollection.contextNodeById 3
           = mapGet singleRootState.nodeIdMapCollection.contextNodeById 3)
    ∧ (mapGet threeChainState.nodeIdMapCollection.contextNodeById 1 = some c3RootNode
       ∧ mapGet (stateOf (deleteContext threeChainState 2)).nodeIdMapCollection.contextNodeById 1
           = some c3RootNode
       ∧ c3RootNode.attributeCounter = c3RootNode.attributeCounter) :=
  ⟨⟨by decide, by decide,
    attributeCounter_monotone_profile.1 singleRootState .csv 0 none c6RootNode c6RootNode
      (by decide) (by decide)⟩,
   ⟨by decide,
    attributeCounter_monotone_profile.2.1 singleRootState .csv 0 none (some c6RootNode) 3
      (by decide) (fun p hp => by injection hp with hq; rw [← hq]; decide)⟩,
   ⟨by decide,
    attributeCounter_monotone_profile.2.2.2.1 singleRootState strayContext strayAst 3
      (by decide)⟩,
   by decide, by decide,
   attributeCounter_monotone_profile.2.2.2.2 threeChainState 2 1 c3RootNode c3RootNode
     (by decide) (by decide)⟩

end PQP
